import Mathlib

/-!
Verification development for the hotel refund intelligence pipeline
(`src/cleaning.py`, `src/metrics.py`, `src/validation.py`).

The tabular data is shallowly embedded: a cell is a `Value` (null, string or
number), a raw batch is a list of rows together with table-level column
presence flags (pandas column presence is per-table, not per-row), and each
pipeline function is translated into a Lean function over these types.
Text is modelled as `List Char` so that every operation is structurally
recursive and kernel-computable. Floating point amounts are modelled by `ℚ`;
the pandas parsing collaborators (`pd.to_datetime` with `dayfirst=True` and
`pd.to_numeric` with coercion) are modelled for the day-first `dd/mm/yyyy`
date format and plain decimal numerals, the formats exercised by the data and
the specification.
-/

/-- Text, modelled as a list of characters. -/
abbrev Str := List Char

/-- If `pat` is a prefix of `s`, return the remainder of `s`. -/
def dropPfx : Str → Str → Option Str
  | [], s => some s
  | _ :: _, [] => none
  | p :: ps, c :: cs => if p = c then dropPfx ps cs else none

/-- Split on a separator, left to right, non-overlapping (the recursion of
Python `str.split` / `String.splitOn`), fuelled by the length of the text so
that the recursion is structural and kernel-computable. -/
def splitFuel (sep : Str) : Nat → Str → Str → List Str
  | _, [], acc => [acc.reverse]
  | 0, s, acc => [acc.reverse ++ s]
  | f + 1, c :: cs, acc =>
    match dropPfx sep (c :: cs) with
    | some rest => acc.reverse :: splitFuel sep f rest []
    | none => splitFuel sep f cs (c :: acc)

/-- Splitting text on a separator (Python `str.split(sep)` for a non-empty
separator; an empty separator returns the text whole). -/
def splitStr (s sep : Str) : List Str :=
  match sep with
  | [] => [s]
  | _ :: _ => splitFuel sep s.length s []

/-- Replace every occurrence of `pat` by `rep` (Python `str.replace`, which
replaces all occurrences, equals joining the split pieces with `rep`). -/
def replaceStr (s pat rep : Str) : Str :=
  match pat with
  | [] => s
  | _ :: _ => List.intercalate rep (splitStr s pat)

/-- Substring containment (pandas `str.contains` without regex, Python `in`):
a non-empty pattern occurs iff splitting on it yields more than one piece. -/
def strContains (s pat : Str) : Bool :=
  pat.isEmpty || (splitStr s pat).length != 1

/-- ASCII lowercase of one character (model of `str.lower`). -/
def lowerChar (c : Char) : Char :=
  if 65 ≤ c.toNat ∧ c.toNat ≤ 90 then Char.ofNat (c.toNat + 32) else c

/-- ASCII lowercase of text. -/
def lowerStr (s : Str) : Str := s.map lowerChar

/-- Whitespace for `str.strip`. -/
def isSpaceChar (c : Char) : Bool := c = ' ' || c = '\t' || c = '\n' || c = '\r'

/-- Python `str.strip()`: drop whitespace from both ends. -/
def trimStr (s : Str) : Str :=
  ((s.dropWhile isSpaceChar).reverse.dropWhile isSpaceChar).reverse

/-- Digit value of a character, if it is a decimal digit. -/
def digitVal (c : Char) : Option Nat :=
  if 48 ≤ c.toNat ∧ c.toNat ≤ 57 then some (c.toNat - 48) else none

/-- Parse a non-empty all-digit string as a natural number. -/
def strToNat : Str → Option Nat
  | [] => none
  | s => s.foldl (fun acc c =>
      match acc, digitVal c with
      | some a, some d => some (a * 10 + d)
      | _, _ => none) (some 0)

/-- Decimal digits of a natural number (fuel-based helper). -/
def natDigitsAux : Nat → Nat → Str
  | 0, _ => []
  | _ + 1, 0 => []
  | f + 1, n => natDigitsAux f (n / 10) ++ [Char.ofNat (48 + n % 10)]

/-- Decimal rendering of a natural number. -/
def natDigits (n : Nat) : Str :=
  if n = 0 then ['0'] else natDigitsAux n n

/-- Kernel-computable addition on `ℚ` (the library `Rat.add` is irreducible;
this wrapper is proved equal to it in `qadd_eq`). -/
def qadd (a b : ℚ) : ℚ := mkRat (a.num * b.den + b.num * a.den) (a.den * b.den)

/-- Kernel-computable multiplication on `ℚ`. -/
def qmul (a b : ℚ) : ℚ := mkRat (a.num * b.num) (a.den * b.den)

/-- Kernel-computable division on `ℚ` (division by zero yields zero, as in the
field structure on `ℚ`). -/
def qdiv (a b : ℚ) : ℚ := mkRat (a.num * b.den * b.num.sign) (a.den * b.num.natAbs)

/-- Kernel-computable absolute value on `ℚ`. -/
def qabs (a : ℚ) : ℚ := if a < 0 then -a else a

/-- Kernel-computable power on `ℚ`. -/
def qpow (a : ℚ) : Nat → ℚ
  | 0 => 1
  | n + 1 => qmul (qpow a n) a

/-- Kernel-computable sum of a list of rationals. -/
def qsum (l : List ℚ) : ℚ := l.foldr qadd 0

/-- Cell value of a tabular batch: missing (NaN/None), text, or numeric. -/
inductive Value
  | null
  | str (s : Str)
  | num (q : ℚ)
  deriving DecidableEq, Repr

/-- Calendar date (day, month, year), the payload of a parsed timestamp. -/
structure Date where
  day : Nat
  month : Nat
  year : Nat
  deriving DecidableEq, Repr

/-- Rendering of a cell by `astype(str)`: NaN prints as "nan", text is
unchanged; numbers render as (sign and) digits — an approximation of the float
printer that is faithful in what matters to the pipeline: a numeric cell never
renders to text containing an alphabetic keyword. -/
def valueToString : Value → Str
  | Value.null => "nan".toList
  | Value.str s => s
  | Value.num q =>
    (if q < 0 then ['-'] else []) ++ natDigits q.num.natAbs ++
      (if q.den = 1 then [] else '/' :: natDigits q.den)

/-- Decimal numeral parser modelling `pd.to_numeric(errors="coerce")` on text:
optional sign, integer part, optional fractional part; anything else is null. -/
def parseRat (s0 : Str) : Option ℚ :=
  let t := trimStr s0
  let sgn : ℚ := if t.headD ' ' = '-' then -1 else 1
  let t := if t.headD ' ' = '-' || t.headD ' ' = '+' then t.tail else t
  match splitStr t ['.'] with
  | [w] => (strToNat w).map (fun n => qmul sgn (n : ℚ))
  | [w, f] =>
    if w.isEmpty && f.isEmpty then none
    else
      match (if w.isEmpty then some 0 else strToNat w),
            (if f.isEmpty then some 0 else strToNat f) with
      | some a, some b => some (qmul sgn (qadd (a : ℚ) (qdiv (b : ℚ) (qpow 10 f.length))))
      | _, _ => none
  | _ => none

/-- Numeric coercion of a cell, modelling `pd.to_numeric(errors="coerce")`:
numbers pass through, text is parsed, null stays null. -/
def to_numeric : Value → Option ℚ
  | Value.null => none
  | Value.str s => parseRat s
  | Value.num q => some q

/-- Reading a cell of a `Float64` column: a number or NA (text cannot occur in
such a column). -/
def floatVal : Value → Option ℚ
  | Value.num q => some q
  | _ => none

/-- Day-first date parser modelling `pd.to_datetime(errors="coerce",
dayfirst=True)` on `dd/mm/yyyy` text; any other shape coerces to NaT. -/
def parseDayFirst (s : Str) : Option Date :=
  match splitStr (trimStr s) ['/'] with
  | [d, m, y] =>
    match strToNat d, strToNat m, strToNat y with
    | some dd, some mm, some yy =>
      if 1 ≤ dd ∧ dd ≤ 31 ∧ 1 ≤ mm ∧ mm ≤ 12 then some ⟨dd, mm, yy⟩ else none
    | _, _, _ => none
  | _ => none

/-- Datetime coercion of a cell (`pd.to_datetime` on a column entry; NaN and
numeric cells yield NaT for the formats in scope). -/
def to_dt : Value → Option Date
  | Value.str s => parseDayFirst s
  | _ => none

/-- Per-row `fillna`: keep the value already present, otherwise take the
fallback. -/
def fillna {α : Type} (a b : Option α) : Option α :=
  match a with
  | some x => some x
  | none => b

/-- Last path segment, modelling `Path(filename).name`. -/
def pathName (filename : Str) : Str :=
  (splitStr filename ['/']).getLastD []

/-- Site spelling normalization table of `parse_site_and_month_from_filename`. -/
def siteMapLookup (k : Str) : Option Str :=
  if k = "brighton".toList then some "Brighton".toList
  else if k = "newheaven".toList then some "Newhaven".toList
  else if k = "newhaven".toList then some "Newhaven".toList
  else none

/-- Month-token table of `parse_site_and_month_from_filename` (deployment
constants: November/December are 2025, January is 2026). -/
def monthMapLookup (k : Str) : Option Str :=
  if k = "november".toList then some "Nov-2025".toList
  else if k = "nov".toList then some "Nov-2025".toList
  else if k = "december".toList then some "Dec-2025".toList
  else if k = "dec".toList then some "Dec-2025".toList
  else if k = "january".toList then some "Jan-2026".toList
  else if k = "jan".toList then some "Jan-2026".toList
  else none

/-- Filename resolver `parse_site_and_month_from_filename` of `cleaning.py`:
strip the directory path, delete every occurrence of ".csv" (Python
`str.replace` replaces all occurrences), split on "_"; `none` models the
`ValueError` raised on fewer than two segments or an unrecognized month. -/
def parse_site_and_month_from_filename (filename : Str) : Option (Str × Str) :=
  let name := pathName filename
  let parts := splitStr (replaceStr name ".csv".toList []) ['_']
  if parts.length < 2 then none
  else
    let raw_site := trimStr (parts.getD 0 [])
    let raw_month := lowerStr (trimStr (parts.getD 1 []))
    let site := (siteMapLookup (lowerStr raw_site)).getD raw_site
    match monthMapLookup raw_month with
    | none => none
    | some m => some (site, m)

/-- Configuration of the cleaning stage (`CleaningConfig` in `cleaning.py`). -/
structure CleaningConfig where
  max_refund_amount : ℚ
  refund_keyword : Str
  high_value_threshold : ℚ
  deriving Repr

/-- The dataclass defaults of `CleaningConfig`. -/
def defaultCleaningConfig : CleaningConfig := ⟨1000, "refund".toList, 100⟩

/-- One raw CSV row, restricted to the fields the pipeline reads (the
`Unnamed:` export-padding columns dropped by `drop_unnamed_columns` and any
other passthrough columns are irrelevant to every claim). -/
structure RawRow where
  BUSINESS_FORMAT_DATE : Value
  BUSINESS_DATE : Value
  BUSINESS_TIME : Value
  ROOM : Value
  RECEIPT_NO : Value
  deriving DecidableEq, Repr

/-- One raw batch: per-table column presence flags (pandas column presence is a
table-level fact) plus the rows. When a flag is false the corresponding field
of each row is ignored by every function, mirroring `col in df.columns`. -/
structure RawBatch where
  hasBUSINESS_FORMAT_DATE : Bool
  hasBUSINESS_DATE : Bool
  hasBUSINESS_TIME : Bool
  hasROOM : Bool
  hasRECEIPT_NO : Bool
  rows : List RawRow
  deriving Repr

/-- Refund indicator `is_refund_row` of `cleaning.py`: `BUSINESS_FORMAT_DATE`
rendered by `astype(str)` contains the keyword case-insensitively; all-false
when the column is missing. -/
def is_refund_row (config : CleaningConfig) (b : RawBatch) (r : RawRow) : Bool :=
  if b.hasBUSINESS_FORMAT_DATE = false then false
  else strContains (lowerStr (valueToString r.BUSINESS_FORMAT_DATE)) (lowerStr config.refund_keyword)

/-- Transaction-date resolution `build_transaction_date` of `cleaning.py`:
start all-NaT, then `fillna` with the parse of `BUSINESS_DATE`, then of
`BUSINESS_TIME`, then of `BUSINESS_FORMAT_DATE`, each column only if present. -/
def build_transaction_date (b : RawBatch) (r : RawRow) : Option Date :=
  let dt : Option Date := none
  let dt := if b.hasBUSINESS_DATE then fillna dt (to_dt r.BUSINESS_DATE) else dt
  let dt := if b.hasBUSINESS_TIME then fillna dt (to_dt r.BUSINESS_TIME) else dt
  let dt := if b.hasBUSINESS_FORMAT_DATE then fillna dt (to_dt r.BUSINESS_FORMAT_DATE) else dt
  dt

/-- Refund-amount resolution `build_refund_amount` of `cleaning.py`: coerce
`ROOM` to numeric, take the absolute value, then null out amounts above the
ceiling (`amt.where(amt <= config.max_refund_amount)`); all-null when `ROOM`
is missing. -/
def build_refund_amount (config : CleaningConfig) (b : RawBatch) (r : RawRow) : Option ℚ :=
  if b.hasROOM = false then none
  else
    match to_numeric r.ROOM with
    | none => none
    | some q => if qabs q ≤ config.max_refund_amount then some (qabs q) else none

/-- Category normalization inlined in `clean_single_file` (lines 151-160 of
`cleaning.py`): start from NA, assign "Accommodation" where the lowercased
`BUSINESS_FORMAT_DATE` contains "accomm", then assign "F&B" where it contains
"f&b" or "food" or "bar" (this second `.loc` assignment overwrites the first
on rows matching both), and fill the remaining NA with "Other"; a missing
column gives "Other" unconditionally. -/
def refund_category_of (b : RawBatch) (r : RawRow) : Str :=
  if b.hasBUSINESS_FORMAT_DATE = false then "Other".toList
  else
    let s := lowerStr (valueToString r.BUSINESS_FORMAT_DATE)
    let cat : Option Str := none
    let cat := if strContains s "accomm".toList then some "Accommodation".toList else cat
    let cat := if strContains s "f&b".toList || strContains s "food".toList ||
        strContains s "bar".toList then some "F&B".toList else cat
    cat.getD "Other".toList

/-- One cleaned record (output row of `clean_single_file`): the derived fields
plus the passthrough `RECEIPT_NO`. -/
structure Row where
  site : Value
  file_month : Value
  refund_category : Value
  transaction_date : Option Date
  refund_amount : Value
  RECEIPT_NO : Value
  deriving DecidableEq, Repr

/-- Cleaning of one file, `clean_single_file` of `cleaning.py` (the CSV read
is the external collaborator; the in-memory batch is the input): resolve
(site, month) from the filename, keep refund rows, derive transaction_date and
refund_amount, drop rows with null refund_amount, attach the category.
`none` models the `ValueError` of the filename resolver. -/
def clean_single_file (config : CleaningConfig) (filename : Str) (b : RawBatch) :
    Option (List Row) :=
  match parse_site_and_month_from_filename filename with
  | none => none
  | some sm =>
    let refundRows := b.rows.filter (fun r => is_refund_row config b r)
    let keyed := refundRows.map (fun r =>
      (r, build_transaction_date b r, build_refund_amount config b r))
    let kept := keyed.filter (fun x => x.2.2.isSome)
    some (kept.map (fun x =>
      { site := Value.str sm.1
        file_month := Value.str sm.2
        refund_category := Value.str (refund_category_of b x.1)
        transaction_date := x.2.1
        refund_amount := match x.2.2 with
          | some q => Value.num q
          | none => Value.null
        RECEIPT_NO := x.1.RECEIPT_NO }))

/-- Cleaning of a list of (filename, batch) pairs in order, concatenating the
results; a per-file failure propagates (helper for `clean_all_files`). -/
def cleanBatches (config : CleaningConfig) : List (Str × RawBatch) → Option (List Row)
  | [] => some []
  | fb :: rest =>
    match clean_single_file config fb.1 fb.2, cleanBatches config rest with
    | some rows, some more => some (rows ++ more)
    | _, _ => none

/-- Consolidation `clean_all_files` of `cleaning.py`: clean every (sorted)
file and concatenate in order; `none` models both the `FileNotFoundError` on
an empty file list and a propagated per-file failure. -/
def clean_all_files (config : CleaningConfig) (files : List (Str × RawBatch)) :
    Option (List Row) :=
  if files.isEmpty then none
  else cleanBatches config files

/-- The consolidated analysis table handed to `MetricsEngine` and
`ValidationEngine`: column presence flags plus rows. -/
structure Table where
  hasSite : Bool
  hasFileMonth : Bool
  hasRefundCategory : Bool
  hasTransactionDate : Bool
  hasRefundAmount : Bool
  hasRECEIPT_NO : Bool
  rows : List Row
  deriving Repr

/-- Table carrying a cleaned batch: every pipeline column is present. -/
def tableOfCleaned (rows : List Row) : Table :=
  ⟨true, true, true, true, true, true, rows⟩

/-- First-occurrence deduplication (helper for group-by keys). -/
def uniqAux {α : Type} [DecidableEq α] (seen : List α) : List α → List α
  | [] => []
  | k :: ks => if k ∈ seen then uniqAux seen ks else k :: uniqAux (k :: seen) ks

/-- Distinct elements of a list in first-occurrence order. -/
def uniq {α : Type} [DecidableEq α] (l : List α) : List α := uniqAux [] l

/-- Descending insertion (helper for value-descending sorts). -/
def insertDescBy {α : Type} (f : α → ℚ) (x : α) : List α → List α
  | [] => [x]
  | y :: ys => if f y ≤ f x then x :: y :: ys else y :: insertDescBy f x ys

/-- Sort a list in descending order of a rational measure (model of
`sort_values(..., ascending=False)`; pandas does not promise tie order and no
claim depends on it). -/
def sortDescBy {α : Type} (f : α → ℚ) : List α → List α
  | [] => []
  | x :: xs => insertDescBy f x (sortDescBy f xs)

/-- Result record of `kpis` in `metrics.py`. -/
structure KPIReport where
  refund_count : Nat
  total_refund_value : ℚ
  avg_refund_value : ℚ
  deriving DecidableEq, Repr

/-- Whole-table KPIs, `kpis` of `metrics.py`: an empty table short-circuits to
zeros; otherwise coerce `refund_amount` to numeric, drop the NaNs, and report
count, sum (0.0 when nothing is left) and mean (0.0 when the count is 0). -/
def kpis (t : Table) : KPIReport :=
  if t.rows.isEmpty then ⟨0, 0, 0⟩
  else
    let s := t.rows.filterMap (fun r => to_numeric r.refund_amount)
    let total := if s.isEmpty then 0 else qsum s
    let count := s.length
    let avg := if count ≠ 0 then qdiv (qsum s) (count : ℚ) else 0
    ⟨count, total, avg⟩

/-- One output row of the two-key group-by aggregations of `metrics.py`. -/
structure AggRow where
  key1 : Value
  key2 : Value
  refund_count : Nat
  total_refund_value : ℚ
  avg_refund_value : Option ℚ
  deriving DecidableEq, Repr

/-- Group-by with two keys over `refund_amount` (`groupby(..., dropna=False)`
followed by count/sum/mean): null keys form their own group; the count counts
non-null amounts, the sum skips nulls (0.0 for an all-null group), the mean of
an all-null group is NaN (`none`). Group order is modelled as first-occurrence
order; no claim concerns it. -/
def groupAgg (rows : List Row) (key : Row → Value × Value) : List AggRow :=
  (uniq (rows.map key)).map (fun k =>
    let grp := rows.filter (fun r => key r == k)
    let vals := grp.filterMap (fun r => floatVal r.refund_amount)
    ⟨k.1, k.2, vals.length, qsum vals,
      if vals.length = 0 then none else some (qdiv (qsum vals) (vals.length : ℚ))⟩)

/-- Per-(site, file_month) aggregation, `by_site_month` of `metrics.py`. -/
def by_site_month (t : Table) : List AggRow :=
  groupAgg t.rows (fun r => (r.site, r.file_month))

/-- Per-(site, refund_category) aggregation, `category_split` of `metrics.py`. -/
def category_split (t : Table) : List AggRow :=
  groupAgg t.rows (fun r => (r.site, r.refund_category))

/-- One output row of `peak_days`. -/
structure PeakRow where
  site : Value
  transaction_date : Option Date
  daily_refund_value : ℚ
  daily_refund_count : Nat
  deriving DecidableEq, Repr

/-- Peak-day ranking, `peak_days` of `metrics.py`: empty result when the
`transaction_date` column is missing; otherwise group by (site, calendar date)
— the default `dropna=True` group-by drops every row whose date is NaT or
whose site is null — aggregate sum/count of `refund_amount`, sort descending
by the summed value and keep the top `top_n`. -/
def peak_days (t : Table) (top_n : Nat) : List PeakRow :=
  if t.hasTransactionDate = false then []
  else
    let d := t.rows.filter (fun r => r.transaction_date.isSome && !(r.site == Value.null))
    let keys := uniq (d.map (fun r => (r.site, r.transaction_date)))
    let g := keys.map (fun k =>
      let grp := d.filter (fun r => (r.site, r.transaction_date) == k)
      let vals := grp.filterMap (fun r => floatVal r.refund_amount)
      PeakRow.mk k.1 k.2 (qsum vals) vals.length)
    (sortDescBy (fun p => p.daily_refund_value) g).take top_n

/-- SQRI weights (`SQRIWeights` in `metrics.py`). -/
structure SQRIWeights where
  accommodation_share_weight : ℚ
  accommodation_avg_weight : ℚ
  high_value_share_weight : ℚ
  deriving DecidableEq, Repr

/-- The dataclass defaults (0.5, 0.3, 0.2) of `SQRIWeights`. -/
def defaultSQRIWeights : SQRIWeights := ⟨mkRat 1 2, mkRat 3 10, mkRat 1 5⟩

/-- One output row of `sqri`. -/
structure SQRIRow where
  site : Value
  total_value : ℚ
  accommodation_value : ℚ
  accommodation_share_value : ℚ
  accommodation_avg : ℚ
  high_value_share : ℚ
  sqri_score : ℚ
  deriving DecidableEq, Repr

/-- Composite risk score, `sqri` of `metrics.py`: coerce `refund_amount`,
drop rows whose amount or site is null, then per site compute total value,
accommodation value and average (0.0 via `fillna` when the site has no
accommodation rows), the share of high-value refunds, the guarded
accommodation share (`acc/total if total else 0.0`), and the weighted score;
output sorted descending by score. -/
def sqri (t : Table) (weights : SQRIWeights) (high_value_threshold : ℚ) : List SQRIRow :=
  if t.rows.isEmpty then []
  else
    let d := (t.rows.filterMap (fun r =>
      (to_numeric r.refund_amount).map (fun q => (r, q)))).filter
      (fun rq => !(rq.1.site == Value.null))
    let sites := uniq (d.map (fun rq => rq.1.site))
    let out := sites.map (fun s =>
      let grp := d.filter (fun rq => rq.1.site == s)
      let total_value := qsum (grp.map (fun rq => rq.2))
      let accGrp := grp.filter (fun rq =>
        lowerStr (valueToString rq.1.refund_category) == "accommodation".toList)
      let accommodation_value := qsum (accGrp.map (fun rq => rq.2))
      let accommodation_avg :=
        if accGrp.length = 0 then 0
        else qdiv (qsum (accGrp.map (fun rq => rq.2))) (accGrp.length : ℚ)
      let high_value_share :=
        qdiv (((grp.filter (fun rq => decide (high_value_threshold ≤ rq.2))).length : ℚ))
          ((grp.length : ℚ))
      let share := if total_value = 0 then 0 else qdiv accommodation_value total_value
      let score := qadd (qadd (qmul share weights.accommodation_share_weight)
          (qmul (qdiv accommodation_avg (100 : ℚ)) weights.accommodation_avg_weight))
          (qmul high_value_share weights.high_value_share_weight)
      SQRIRow.mk s total_value accommodation_value share accommodation_avg
        high_value_share score)
    sortDescBy (fun r => r.sqri_score) out

/-- Result record of `duplicate_check` in `validation.py` (the Python function
returns a dict whose keys differ between the missing-column branch and the
normal branch; the optional fields mirror that). -/
structure DuplicateReport where
  duplicate_rows : Nat
  distinct_duplicate_keys : Option Nat
  note_missing_key_cols : Option Nat
  deriving DecidableEq, Repr

/-- Number of absent duplicate-key columns among (site, transaction_date,
RECEIPT_NO, refund_amount). -/
def missingKeyCols (t : Table) : Nat :=
  (if t.hasSite then 0 else 1) + (if t.hasTransactionDate then 0 else 1) +
    (if t.hasRECEIPT_NO then 0 else 1) + (if t.hasRefundAmount then 0 else 1)

/-- The duplicate-key tuple of a row. -/
def dupKey (r : Row) : Value × Option Date × Value × Value :=
  (r.site, r.transaction_date, r.RECEIPT_NO, r.refund_amount)

/-- Duplicate detection, `duplicate_check` of `validation.py`: with any key
column absent, report zero duplicates plus the number of missing columns;
otherwise `duplicated(subset=key, keep=False)` marks every member of a key
group of size at least 2 (pandas treats NaN keys as equal, as does `Value`
equality), and the distinct duplicated key tuples are counted when any exist. -/
def duplicate_check (t : Table) : DuplicateReport :=
  if missingKeyCols t ≠ 0 then ⟨0, none, some (missingKeyCols t)⟩
  else
    let dupRows := t.rows.filter (fun r =>
      2 ≤ (t.rows.filter (fun r2 => dupKey r2 == dupKey r)).length)
    let dup_rows := dupRows.length
    let distinct := if dup_rows ≠ 0 then (uniq (dupRows.map dupKey)).length else 0
    ⟨dup_rows, some distinct, none⟩

/-- The table with the rows of null (NaT) transaction_date removed. -/
def dropNullDates (t : Table) : Table :=
  { t with rows := t.rows.filter (fun r => r.transaction_date.isSome) }

/-- The table with the rows of null site removed. -/
def dropNullSites (t : Table) : Table :=
  { t with rows := t.rows.filter (fun r => !(r.site == Value.null)) }

/-- The non-null `refund_amount` cells of the rows of `t` whose (site,
transaction_date) pair equals the given key — the day group a `peak_days`
output row aggregates. -/
def peakGroupAmounts (t : Table) (s : Value) (d : Option Date) : List ℚ :=
  (t.rows.filter (fun r => (r.site, r.transaction_date) == (s, d))).filterMap
    (fun r => floatVal r.refund_amount)

/-- Raw row with `BUSINESS_FORMAT_DATE` text matching both the "accomm" and
the "bar" category patterns (fixture for the category-precedence claim). -/
def accommBarRow : RawRow :=
  ⟨Value.str "Refund Accommodation Bar".toList, Value.null, Value.null,
    Value.num 50, Value.null⟩

/-- One-row batch around `accommBarRow` with every column present. -/
def accommBarBatch : RawBatch := ⟨true, true, true, true, true, [accommBarRow]⟩

/-- Raw row with an empty `BUSINESS_DATE`, a parseable `BUSINESS_TIME` and a
`BUSINESS_FORMAT_DATE` that does not parse as a date (fixture for the
date-fallback claim). -/
def dateFallbackRow : RawRow :=
  ⟨Value.str "16/01/2026 Refund".toList, Value.str [], Value.str "15/01/2026".toList,
    Value.num 10, Value.null⟩

/-- One-row batch around `dateFallbackRow` with every column present. -/
def dateFallbackBatch : RawBatch := ⟨true, true, true, true, true, [dateFallbackRow]⟩

/-- Refund raw row with the given `ROOM` cell (fixture for the outlier
boundary claim). -/
def roomRow (v : Value) : RawRow :=
  ⟨Value.str "Refund".toList, Value.null, Value.null, v, Value.null⟩

/-- Two refund rows, `ROOM` exactly 1000.0 and `ROOM` 1000.01 (fixture for the
outlier boundary claim). -/
def outlierBatch : RawBatch :=
  ⟨true, true, true, true, true, [roomRow (Value.num 1000), roomRow (Value.num (mkRat 100001 100))]⟩

/-- Cleaned row with refund_amount 0 (fixture for the division-guard claim:
its site total is 0). -/
def zeroAmountRow : Row :=
  ⟨Value.str "Brighton".toList, Value.str "Nov-2025".toList, Value.str "Other".toList,
    some ⟨1, 11, 2025⟩, Value.num 0, Value.null⟩

/-- Cleaned row whose site cell is null (fixture for the null-site-group
claims). -/
def nullSiteRow : Row :=
  ⟨Value.null, Value.str "Nov-2025".toList, Value.str "Other".toList,
    some ⟨1, 11, 2025⟩, Value.num 45, Value.null⟩

/-- Cleaned row fixture for the duplicate-check claim; `a` is both the amount
and a receipt discriminator, `d` the day of month. -/
def dupFixtureRow (d : Nat) (a : ℚ) (receipt : Str) : Row :=
  ⟨Value.str "Brighton".toList, Value.str "Nov-2025".toList, Value.str "Other".toList,
    some ⟨d, 11, 2025⟩, Value.num a, Value.str receipt⟩

/-- Table with two rows agreeing on the whole duplicate key and a third row
sharing only part of it. -/
def dupFixtureTable : Table :=
  tableOfCleaned
    [dupFixtureRow 1 45 "R1".toList, dupFixtureRow 1 45 "R1".toList,
      dupFixtureRow 2 60 "R2".toList]

/-- Cleaned row fixture for the peak-days claim. -/
def peakFixtureRow (d : Option Date) (a : ℚ) : Row :=
  ⟨Value.str "Brighton".toList, Value.str "Nov-2025".toList, Value.str "Other".toList,
    d, Value.num a, Value.null⟩

/-- Table with two rows on the same day and one row with a null date (fixture
for the peak-days claim). -/
def peakFixtureTable : Table :=
  tableOfCleaned
    [peakFixtureRow (some ⟨1, 11, 2025⟩) 30, peakFixtureRow (some ⟨1, 11, 2025⟩) 40,
      peakFixtureRow none 99]

/-- The SQRI output row for a site whose only refund has amount 0 (fixture
for the division-guard witness). -/
def c7OutRow : SQRIRow := SQRIRow.mk (Value.str "Brighton".toList) 0 0 0 0 0 0

/-- The top peak-day row of `peakFixtureTable` (fixture for the peak-days
witness). -/
def c9OutRow : PeakRow := ⟨Value.str "Brighton".toList, some ⟨1, 11, 2025⟩, 70, 2⟩

/-- Table mixing a null-site row with a Brighton row (fixture for the
null-site-exclusion witness). -/
def c10Table : Table := tableOfCleaned [nullSiteRow, zeroAmountRow]

/-- The single SQRI output row of `c10Table` (the null-site row contributes to
no aggregate). -/
def c10OutRow : SQRIRow := SQRIRow.mk (Value.str "Brighton".toList) 0 0 0 0 0 0

/-- Table lacking the RECEIPT_NO column (fixture for the duplicate-check
missing-column branch). -/
def noReceiptTable : Table :=
  ⟨true, true, true, true, true, false, [dupFixtureRow 1 45 "R1".toList]⟩

/-- The single row produced by cleaning `outlierBatch` (fixture for the
non-null-amount witness). -/
def c3OutRow : Row :=
  ⟨Value.str "Brighton".toList, Value.str "Nov-2025".toList, Value.str "Other".toList,
    none, Value.num 1000, Value.null⟩

theorem qadd_eq (a b : ℚ) : qadd a b = a + b := by
  have ha : (a.den : ℤ) ≠ 0 := Int.natCast_ne_zero.mpr a.den_nz
  have hb : (b.den : ℤ) ≠ 0 := Int.natCast_ne_zero.mpr b.den_nz
  rw [qadd, Rat.mkRat_eq_divInt]
  push_cast
  rw [← Rat.divInt_add_divInt _ _ ha hb, Rat.num_divInt_den, Rat.num_divInt_den]

theorem qmul_eq (a b : ℚ) : qmul a b = a * b := by
  rw [qmul, Rat.mkRat_eq_divInt]
  push_cast
  rw [← Rat.divInt_mul_divInt', Rat.num_divInt_den, Rat.num_divInt_den]

theorem qdiv_eq (a b : ℚ) : qdiv a b = a / b := by
  rw [qdiv, Rat.mkRat_eq_divInt, Rat.div_def']
  cases h : b.num with
  | ofNat n =>
    cases n with
    | zero => simp [Int.sign]
    | succ m =>
      have hs : (Int.ofNat (m + 1)).sign = 1 := rfl
      have hn : (Int.ofNat (m + 1)).natAbs = m + 1 := rfl
      rw [hs, hn, Int.mul_one]
      push_cast
      rfl
  | negSucc n =>
    have hs : (Int.negSucc n).sign = -1 := rfl
    have hn : (Int.negSucc n).natAbs = n + 1 := rfl
    have hd : ((a.den * (n + 1) : ℕ) : ℤ) = -((a.den : ℤ) * Int.negSucc n) := by
      rw [Int.negSucc_eq]
      push_cast
      ring
    rw [hs, hn, hd, Rat.divInt_neg']
    rw [show -(a.num * (b.den : ℤ) * -1) = a.num * b.den by ring]

theorem qabs_eq (a : ℚ) : qabs a = |a| := by
  rw [qabs]
  by_cases h : a < 0
  · simp [h, abs_of_neg h]
  · simp [h, abs_of_nonneg (le_of_not_lt h)]

theorem qpow_eq (a : ℚ) (n : Nat) : qpow a n = a ^ n := by
  induction n with
  | zero => rfl
  | succ m ih => rw [qpow, qmul_eq, ih, pow_succ]

theorem qsum_eq (l : List ℚ) : qsum l = l.sum := by
  induction l with
  | nil => rfl
  | cons x xs ih => rw [qsum, List.foldr_cons, qadd_eq, List.sum_cons, ← ih]; rfl

example : parse_site_and_month_from_filename "Brighton_November_refund.csv".toList =
    some ("Brighton".toList, "Nov-2025".toList) := by decide

example : parse_site_and_month_from_filename "data/raw/Newheaven_January_refund.csv".toList =
    some ("Newhaven".toList, "Jan-2026".toList) := by decide

example : parse_site_and_month_from_filename "My.csvFile_Nov_x.csv".toList =
    some ("MyFile".toList, "Nov-2025".toList) := by decide

example : parseRat "-45.50".toList = some (mkRat (-91) 2) := by decide

example : parseDayFirst "15/01/2026".toList = some ⟨15, 1, 2026⟩ := by decide

example : parseDayFirst "16/01/2026 Refund".toList = none := by decide

example : strContains (lowerStr "Refund Accommodation Bar".toList) "accomm".toList = true := by
  decide

theorem mem_uniqAux {α : Type} [DecidableEq α] (l : List α) :
    ∀ (seen : List α) (x : α), x ∈ uniqAux seen l ↔ x ∈ l ∧ x ∉ seen := by
  induction l with
  | nil => intro seen x; simp [uniqAux]
  | cons k ks ih =>
    intro seen x
    by_cases hk : k ∈ seen
    · rw [uniqAux, if_pos hk, ih]
      constructor
      · rintro ⟨h1, h2⟩
        exact ⟨List.mem_cons_of_mem _ h1, h2⟩
      · rintro ⟨h1, h2⟩
        rcases List.mem_cons.mp h1 with rfl | h1
        · exact absurd hk h2
        · exact ⟨h1, h2⟩
    · rw [uniqAux, if_neg hk]
      rcases eq_or_ne x k with rfl | hxk
      · simp [hk]
      · rw [List.mem_cons]
        constructor
        · rintro (rfl | h1)
          · exact absurd rfl hxk
          · rcases (ih _ x).mp h1 with ⟨h2, h3⟩
            refine ⟨List.mem_cons_of_mem _ h2, fun hc => h3 (List.mem_cons_of_mem _ hc)⟩
        · rintro ⟨h1, h2⟩
          rcases List.mem_cons.mp h1 with rfl | h1
          · exact absurd rfl hxk
          · refine Or.inr ((ih _ x).mpr ⟨h1, fun hc => ?_⟩)
            rcases List.mem_cons.mp hc with rfl | hc
            · exact hxk rfl
            · exact h2 hc

theorem mem_uniq {α : Type} [DecidableEq α] (l : List α) (x : α) :
    x ∈ uniq l ↔ x ∈ l := by
  rw [uniq, mem_uniqAux]
  simp

theorem mem_insertDescBy {α : Type} (f : α → ℚ) (x y : α) (l : List α) :
    y ∈ insertDescBy f x l ↔ y = x ∨ y ∈ l := by
  induction l with
  | nil => simp [insertDescBy]
  | cons z zs ih =>
    by_cases h : f z ≤ f x
    · simp [insertDescBy, h]
    · simp only [insertDescBy, if_neg h, List.mem_cons, ih]
      tauto

theorem mem_sortDescBy {α : Type} (f : α → ℚ) (l : List α) (y : α) :
    y ∈ sortDescBy f l ↔ y ∈ l := by
  induction l with
  | nil => simp [sortDescBy]
  | cons z zs ih => simp [sortDescBy, mem_insertDescBy, ih]

theorem pairwise_insertDescBy {α : Type} (f : α → ℚ) (x : α) (l : List α)
    (h : l.Pairwise (fun a b => f b ≤ f a)) :
    (insertDescBy f x l).Pairwise (fun a b => f b ≤ f a) := by
  induction l with
  | nil => simp [insertDescBy]
  | cons z zs ih =>
    rcases List.pairwise_cons.mp h with ⟨hz, hzs⟩
    by_cases hle : f z ≤ f x
    · rw [insertDescBy, if_pos hle]
      refine List.pairwise_cons.mpr ⟨?_, h⟩
      intro y hy
      rcases List.mem_cons.mp hy with rfl | hy
      · exact hle
      · exact le_trans (hz y hy) hle
    · rw [insertDescBy, if_neg hle]
      refine List.pairwise_cons.mpr ⟨?_, ih hzs⟩
      intro y hy
      rcases (mem_insertDescBy f x y zs).mp hy with rfl | hy
      · exact le_of_not_le hle
      · exact hz y hy

theorem pairwise_sortDescBy {α : Type} (f : α → ℚ) (l : List α) :
    (sortDescBy f l).Pairwise (fun a b => f b ≤ f a) := by
  induction l with
  | nil => simp [sortDescBy]
  | cons z zs ih => exact pairwise_insertDescBy f z _ ih

theorem mem_cleanBatches (config : CleaningConfig) :
    ∀ (files : List (Str × RawBatch)) (out : List Row),
      cleanBatches config files = some out →
      ∀ row ∈ out, ∃ fb ∈ files, ∃ rows,
        clean_single_file config fb.1 fb.2 = some rows ∧ row ∈ rows := by
  intro files
  induction files with
  | nil =>
    intro out h row hrow
    rw [cleanBatches] at h
    cases h
    simp at hrow
  | cons fb rest ih =>
    intro out h row hrow
    rw [cleanBatches] at h
    cases hf : clean_single_file config fb.1 fb.2 with
    | none => rw [hf] at h; exact absurd h (by simp)
    | some rows =>
      cases hr : cleanBatches config rest with
      | none => rw [hf, hr] at h; exact absurd h (by simp)
      | some more =>
        rw [hf, hr] at h
        cases h
        rcases List.mem_append.mp hrow with hmem | hmem
        · exact ⟨fb, List.mem_cons_self fb rest, rows, hf, hmem⟩
        · rcases ih more hr row hmem with ⟨fb2, hfb2, rows2, h1, h2⟩
          exact ⟨fb2, List.mem_cons_of_mem _ hfb2, rows2, h1, h2⟩


/-- C6: `kpis` applied to an empty consolidated table returns exactly count 0,
sum 0.0 and mean 0.0 — the empty-table branch returns literal zeros, and the
result type of the model carries no null/NaN. -/
theorem C6_kpis_empty (t : Table) (h : t.rows = []) : kpis t = ⟨0, 0, 0⟩ := by
  rw [kpis, h]
  rfl

theorem C6_witness :
    (tableOfCleaned []).rows = [] ∧ kpis (tableOfCleaned []) = ⟨0, 0, 0⟩ :=
  ⟨rfl, C6_kpis_empty (tableOfCleaned []) rfl⟩

/-- C8: the duplicate check over (site, transaction_date, RECEIPT_NO,
refund_amount) counts every member of a full-key duplicate group and the
distinct duplicated key tuples — two rows sharing the whole key give
duplicate_rows 2 and distinct_duplicate_keys 1 while a third row sharing only
part of the key is excluded — and with any key column absent it reports zero
duplicates plus the number of missing key columns instead of failing. -/
theorem C8_duplicate_check :
    (∀ t : Table, missingKeyCols t ≠ 0 →
      duplicate_check t = ⟨0, none, some (missingKeyCols t)⟩) ∧
    duplicate_check dupFixtureTable =
      { duplicate_rows := 2, distinct_duplicate_keys := some 1,
        note_missing_key_cols := none } := by
  constructor
  · intro t h
    rw [duplicate_check, if_pos h]
  · decide

theorem C8_witness :
    missingKeyCols noReceiptTable ≠ 0 ∧
    duplicate_check noReceiptTable = ⟨0, none, some (missingKeyCols noReceiptTable)⟩ :=
  ⟨by decide, C8_duplicate_check.1 noReceiptTable (by decide)⟩

/-- C2 counterexample: the resolver does not preserve a ".csv" occurring away
from the end of the name — "My.csvFile_November.csv" resolves with site
segment "MyFile", not the "My.csvFile" the claim requires. -/
theorem C2_counterexample :
    parse_site_and_month_from_filename "My.csvFile_November.csv".toList =
      some ("MyFile".toList, "Nov-2025".toList) ∧
    ("MyFile".toList : Str) ≠ "My.csvFile".toList := by decide

/-- C2 amended: the resolver deletes every occurrence of the literal ".csv"
(case-sensitively) anywhere in the name before splitting on "_": a trailing
suffix is removed, an interior occurrence is removed too rather than
preserved, and a differently-cased ".CSV" is not removed (below it makes the
month token unrecognizable, a hard error). -/
theorem C2_amended_strip :
    parse_site_and_month_from_filename "Brighton_November_refund.csv".toList =
      some ("Brighton".toList, "Nov-2025".toList) ∧
    parse_site_and_month_from_filename "My.csvFile_November".toList =
      some ("MyFile".toList, "Nov-2025".toList) ∧
    parse_site_and_month_from_filename "Brighton_November.CSV".toList = none := by
  refine ⟨by decide, by decide, by decide⟩

/-- C1 counterexample: a row whose `BUSINESS_FORMAT_DATE` contains both
"accomm" and "bar" is categorized "F&B" by normalization, not
"Accommodation" — the F&B `.loc` assignment runs after, and overwrites, the
Accommodation one. -/
theorem C1_counterexample :
    strContains (lowerStr (valueToString accommBarRow.BUSINESS_FORMAT_DATE))
      "accomm".toList = true ∧
    (clean_single_file defaultCleaningConfig "Brighton_November_refund.csv".toList
        accommBarBatch).map (List.map (fun row => row.refund_category)) =
      some [Value.str "F&B".toList] ∧
    Value.str "F&B".toList ≠ Value.str "Accommodation".toList := by
  refine ⟨by decide, by decide, by decide⟩

/-- C1 amended: the category precedence is the reverse of the claim — the F&B
substrings ("f&b", "food", "bar") win over "accomm" because their assignment
executes last; "accomm" yields "Accommodation" only when no F&B substring is
present, and a value matching neither family yields "Other". -/
theorem C1_amended_category_precedence (b : RawBatch) (r : RawRow)
    (hcol : b.hasBUSINESS_FORMAT_DATE = true) :
    ((strContains (lowerStr (valueToString r.BUSINESS_FORMAT_DATE)) "f&b".toList ||
      strContains (lowerStr (valueToString r.BUSINESS_FORMAT_DATE)) "food".toList ||
      strContains (lowerStr (valueToString r.BUSINESS_FORMAT_DATE)) "bar".toList) = true →
      refund_category_of b r = "F&B".toList) ∧
    (strContains (lowerStr (valueToString r.BUSINESS_FORMAT_DATE)) "accomm".toList = true →
      (strContains (lowerStr (valueToString r.BUSINESS_FORMAT_DATE)) "f&b".toList ||
       strContains (lowerStr (valueToString r.BUSINESS_FORMAT_DATE)) "food".toList ||
       strContains (lowerStr (valueToString r.BUSINESS_FORMAT_DATE)) "bar".toList) = false →
      refund_category_of b r = "Accommodation".toList) ∧
    (strContains (lowerStr (valueToString r.BUSINESS_FORMAT_DATE)) "accomm".toList = false →
      (strContains (lowerStr (valueToString r.BUSINESS_FORMAT_DATE)) "f&b".toList ||
       strContains (lowerStr (valueToString r.BUSINESS_FORMAT_DATE)) "food".toList ||
       strContains (lowerStr (valueToString r.BUSINESS_FORMAT_DATE)) "bar".toList) = false →
      refund_category_of b r = "Other".toList) := by
  have hne : ¬ b.hasBUSINESS_FORMAT_DATE = false := by simp [hcol]
  refine ⟨fun hfb => ?_, fun hacc hfb => ?_, fun hacc hfb => ?_⟩
  · rw [refund_category_of, if_neg hne]
    simp only [hfb, if_pos]
    rfl
  · rw [refund_category_of, if_neg hne]
    simp only [hfb, hacc]
    rfl
  · rw [refund_category_of, if_neg hne]
    simp only [hfb, hacc]
    rfl

theorem C1_witness :
    accommBarBatch.hasBUSINESS_FORMAT_DATE = true ∧
    (strContains (lowerStr (valueToString accommBarRow.BUSINESS_FORMAT_DATE)) "f&b".toList ||
     strContains (lowerStr (valueToString accommBarRow.BUSINESS_FORMAT_DATE)) "food".toList ||
     strContains (lowerStr (valueToString accommBarRow.BUSINESS_FORMAT_DATE)) "bar".toList)
      = true ∧
    refund_category_of accommBarBatch accommBarRow = "F&B".toList :=
  ⟨rfl, by decide,
    (C1_amended_category_precedence accommBarBatch accommBarRow rfl).1 (by decide)⟩


/-- C5: refund-amount resolution takes the absolute value of the numeric
coercion of ROOM and nulls exactly the values strictly above the configured
ceiling: whenever ROOM coerces to q, the result is `some |q|` iff
|q| ≤ ceiling and null iff ceiling < |q|; concretely an absolute value of
exactly 1000.0 is retained while 1000.01 resolves to null and its row is
dropped by `clean_single_file`. -/
theorem C5_amount_outlier :
    (∀ (config : CleaningConfig) (b : RawBatch) (r : RawRow) (q : ℚ),
      b.hasROOM = true → to_numeric r.ROOM = some q →
      (build_refund_amount config b r = some |q| ↔ |q| ≤ config.max_refund_amount) ∧
      (build_refund_amount config b r = none ↔ config.max_refund_amount < |q|)) ∧
    build_refund_amount defaultCleaningConfig outlierBatch (roomRow (Value.num 1000)) =
      some 1000 ∧
    build_refund_amount defaultCleaningConfig outlierBatch
      (roomRow (Value.num (mkRat 100001 100))) = none ∧
    (clean_single_file defaultCleaningConfig "Brighton_November_refund.csv".toList
        outlierBatch).map (List.map (fun row => row.refund_amount)) =
      some [Value.num 1000] := by
  refine ⟨?_, by decide, by decide, by decide⟩
  intro config b r q hroom hq
  have hne : ¬ b.hasROOM = false := by simp [hroom]
  rw [← qabs_eq]
  have hb : build_refund_amount config b r =
      if qabs q ≤ config.max_refund_amount then some (qabs q) else none := by
    rw [build_refund_amount, if_neg hne, hq]
  rw [hb]
  by_cases hle : qabs q ≤ config.max_refund_amount
  · rw [if_pos hle]
    exact ⟨⟨fun _ => hle, fun _ => rfl⟩,
      ⟨fun h => (nomatch h), fun h => absurd hle (not_le.mpr h)⟩⟩
  · rw [if_neg hle]
    exact ⟨⟨fun h => (nomatch h), fun h => absurd h hle⟩,
      ⟨fun _ => not_le.mp hle, fun _ => rfl⟩⟩

theorem C5_witness :
    outlierBatch.hasROOM = true ∧
    to_numeric (roomRow (Value.num 1000)).ROOM = some 1000 ∧
    (build_refund_amount defaultCleaningConfig outlierBatch (roomRow (Value.num 1000)) =
        some |(1000 : ℚ)| ↔
      |(1000 : ℚ)| ≤ defaultCleaningConfig.max_refund_amount) :=
  ⟨rfl, by decide,
    ((C5_amount_outlier.1 defaultCleaningConfig outlierBatch (roomRow (Value.num 1000))
      1000 rfl (by decide)).1)⟩

/-- C4: transaction-date resolution is a per-row coalesce over the ordered
columns (BUSINESS_DATE, BUSINESS_TIME, BUSINESS_FORMAT_DATE): the first
column's parse wins when it succeeds, the second fills only rows the first
left null, the third only rows still null after both; concretely a row with
BUSINESS_DATE empty, BUSINESS_TIME "15/01/2026" and BUSINESS_FORMAT_DATE
"16/01/2026 Refund" resolves to 15 January 2026. -/
theorem C4_date_coalesce :
    (∀ (b : RawBatch) (r : RawRow),
      b.hasBUSINESS_DATE = true → b.hasBUSINESS_TIME = true →
      b.hasBUSINESS_FORMAT_DATE = true →
      (∀ d, to_dt r.BUSINESS_DATE = some d → build_transaction_date b r = some d) ∧
      (to_dt r.BUSINESS_DATE = none →
        ∀ d, to_dt r.BUSINESS_TIME = some d → build_transaction_date b r = some d) ∧
      (to_dt r.BUSINESS_DATE = none → to_dt r.BUSINESS_TIME = none →
        build_transaction_date b r = to_dt r.BUSINESS_FORMAT_DATE)) ∧
    build_transaction_date dateFallbackBatch dateFallbackRow = some ⟨15, 1, 2026⟩ := by
  refine ⟨?_, by decide⟩
  intro b r h1 h2 h3
  refine ⟨fun d hd => ?_, fun hn d hd => ?_, fun hn1 hn2 => ?_⟩
  · rw [build_transaction_date]
    simp only [h1, h2, h3, if_pos, hd, fillna]
  · rw [build_transaction_date]
    simp only [h1, h2, h3, if_pos, hn, hd, fillna]
  · rw [build_transaction_date]
    simp only [h1, h2, h3, if_pos, hn1, hn2, fillna]

theorem C4_witness :
    to_dt dateFallbackRow.BUSINESS_DATE = none ∧
    to_dt dateFallbackRow.BUSINESS_TIME = some ⟨15, 1, 2026⟩ ∧
    build_transaction_date dateFallbackBatch dateFallbackRow = some ⟨15, 1, 2026⟩ :=
  ⟨by decide, by decide,
    (C4_date_coalesce.1 dateFallbackBatch dateFallbackRow rfl rfl rfl).2.1
      (by decide) ⟨15, 1, 2026⟩ (by decide)⟩

/-- C3: every row of a `clean_single_file` output — and hence every row of the
consolidated `clean_all_files` table handed to the metrics and validation
engines — has a non-null refund_amount; rows whose resolved amount is null
are dropped during normalization and never carried forward. -/
theorem C3_nonnull_refund_amount :
    (∀ (config : CleaningConfig) (fn : Str) (b : RawBatch) (out : List Row),
      clean_single_file config fn b = some out →
      ∀ row ∈ out, row.refund_amount ≠ Value.null) ∧
    (∀ (config : CleaningConfig) (files : List (Str × RawBatch)) (out : List Row),
      clean_all_files config files = some out →
      ∀ row ∈ out, row.refund_amount ≠ Value.null) := by
  have h1 : ∀ (config : CleaningConfig) (fn : Str) (b : RawBatch) (out : List Row),
      clean_single_file config fn b = some out →
      ∀ row ∈ out, row.refund_amount ≠ Value.null := by
    intro config fn b out h row hrow
    rw [clean_single_file] at h
    cases hp : parse_site_and_month_from_filename fn with
    | none => rw [hp] at h; cases h
    | some sm =>
      rw [hp] at h
      simp only [Option.some_inj] at h
      subst h
      rcases List.mem_map.mp hrow with ⟨x, hx, heq⟩
      rcases List.mem_filter.mp hx with ⟨-, hsome⟩
      subst heq
      cases hval : x.2.2 with
      | none => rw [hval] at hsome; cases hsome
      | some q =>
        simp only [hval]
        intro hc
        cases hc
  refine ⟨h1, ?_⟩
  intro config files out h row hrow
  rw [clean_all_files] at h
  by_cases he : files.isEmpty
  · rw [if_pos he] at h; cases h
  · rw [if_neg he] at h
    rcases mem_cleanBatches config files out h row hrow with ⟨fb, _, rows, hclean, hmem⟩
    exact h1 config fb.1 fb.2 rows hclean row hmem

theorem C3_witness :
    clean_all_files defaultCleaningConfig
        [("Brighton_November_refund.csv".toList, outlierBatch)] = some [c3OutRow] ∧
    c3OutRow.refund_amount ≠ Value.null :=
  ⟨by decide,
    C3_nonnull_refund_amount.2 defaultCleaningConfig
      [("Brighton_November_refund.csv".toList, outlierBatch)] [c3OutRow] (by decide)
      c3OutRow (by decide)⟩

/-- C7: in the SQRI computation, every output row whose total_value is 0 has
accommodation_share_value 0 — the division acc/total is guarded by the
`if total` truthiness test — and its score is still computed, reducing to the
two unguarded weighted terms. -/
theorem C7_sqri_div_guard (t : Table) (w : SQRIWeights) (hv : ℚ) (row : SQRIRow)
    (hmem : row ∈ sqri t w hv) (hz : row.total_value = 0) :
    row.accommodation_share_value = 0 ∧
    row.sqri_score = row.accommodation_avg / 100 * w.accommodation_avg_weight +
      row.high_value_share * w.high_value_share_weight := by
  rw [sqri] at hmem
  by_cases he : t.rows.isEmpty
  · rw [if_pos he] at hmem
    cases hmem
  · rw [if_neg he] at hmem
    rw [mem_sortDescBy] at hmem
    rcases List.mem_map.mp hmem with ⟨s, hs, heq⟩
    subst heq
    dsimp only at hz ⊢
    rw [if_pos hz]
    refine ⟨rfl, ?_⟩
    rw [qadd_eq, qadd_eq, qmul_eq, qmul_eq, qmul_eq, qdiv_eq]
    ring

theorem C7_witness :
    c7OutRow ∈ sqri (tableOfCleaned [zeroAmountRow]) defaultSQRIWeights 100 ∧
    c7OutRow.total_value = 0 ∧
    (c7OutRow.accommodation_share_value = 0 ∧
      c7OutRow.sqri_score =
        c7OutRow.accommodation_avg / 100 * defaultSQRIWeights.accommodation_avg_weight +
          c7OutRow.high_value_share * defaultSQRIWeights.high_value_share_weight) :=
  ⟨by decide, rfl,
    C7_sqri_div_guard (tableOfCleaned [zeroAmountRow]) defaultSQRIWeights 100 c7OutRow
      (by decide) rfl⟩

theorem peak_filter_stable (t : Table) (k : Value × Option Date)
    (hd : k.2.isSome = true) (hs : (k.1 == Value.null) = false) :
    ((t.rows.filter (fun r => r.transaction_date.isSome && !(r.site == Value.null))).filter
      (fun r => (r.site, r.transaction_date) == k)) =
      t.rows.filter (fun r => (r.site, r.transaction_date) == k) := by
  rw [@List.filter_filter _ (fun r => (r.site, r.transaction_date) == k)
    (fun r => r.transaction_date.isSome && !(r.site == Value.null)) t.rows]
  apply List.filter_congr
  intro r _
  cases hq : ((r.site, r.transaction_date) == k) with
  | false => simp [hq]
  | true =>
    have heq : (r.site, r.transaction_date) = k := eq_of_beq hq
    have h1 : r.transaction_date = k.2 := congrArg Prod.snd heq
    have h2 : r.site = k.1 := congrArg Prod.fst heq
    simp [h1, h2, hd, hs]

/-- C9: `peak_days` groups by (site, calendar date), sums and counts
refund_amount per group, sorts descending by the summed value, truncates to
the top N, and excludes every row whose transaction_date is null from the
view (removing such rows changes nothing). -/
theorem C9_peak_days (t : Table) (n : Nat) :
    (peak_days t n).length ≤ n ∧
    (peak_days t n).Pairwise (fun a b => b.daily_refund_value ≤ a.daily_refund_value) ∧
    peak_days t n = peak_days (dropNullDates t) n ∧
    (∀ row ∈ peak_days t n,
      row.transaction_date.isSome = true ∧
      row.daily_refund_value = qsum (peakGroupAmounts t row.site row.transaction_date) ∧
      row.daily_refund_count = (peakGroupAmounts t row.site row.transaction_date).length) := by
  by_cases hcol : t.hasTransactionDate = false
  · have hcol2 : (dropNullDates t).hasTransactionDate = false := hcol
    rw [peak_days, peak_days, if_pos hcol, if_pos hcol2]
    refine ⟨Nat.zero_le n, List.Pairwise.nil, rfl, ?_⟩
    intro row hrow
    cases hrow
  · have hcol2 : ¬ (dropNullDates t).hasTransactionDate = false := hcol
    refine ⟨?_, ?_, ?_, ?_⟩
    · rw [peak_days, if_neg hcol]
      exact List.length_take_le n _
    · rw [peak_days, if_neg hcol]
      exact (pairwise_sortDescBy _ _).sublist (List.take_sublist n _)
    · rw [peak_days, peak_days, if_neg hcol, if_neg hcol2]
      have hd : (dropNullDates t).rows.filter
          (fun r => r.transaction_date.isSome && !(r.site == Value.null)) =
          t.rows.filter (fun r => r.transaction_date.isSome && !(r.site == Value.null)) := by
        rw [dropNullDates]
        rw [@List.filter_filter _
          (fun r => r.transaction_date.isSome && !(r.site == Value.null))
          (fun r => r.transaction_date.isSome) t.rows]
        apply List.filter_congr
        intro r _
        cases hh : r.transaction_date.isSome <;> simp [hh]
      rw [hd]
    · intro row hrow
      rw [peak_days, if_neg hcol] at hrow
      have hrow2 := (mem_sortDescBy _ _ row).mp ((List.take_sublist n _).subset hrow)
      rcases List.mem_map.mp hrow2 with ⟨k, hk, heq⟩
      have hk2 := (mem_uniq _ k).mp hk
      rcases List.mem_map.mp hk2 with ⟨r0, hr0, hkey⟩
      rcases List.mem_filter.mp hr0 with ⟨-, hp⟩
      rcases (Bool.and_eq_true _ _).mp hp with ⟨hsome, hnot⟩
      have hd2 : k.2.isSome = true := by
        rw [← hkey]
        exact hsome
      have hs2 : (k.1 == Value.null) = false := by
        rw [← hkey]
        cases hb : (r0.site == Value.null)
        · rfl
        · rw [hb] at hnot
          cases hnot
      subst heq
      refine ⟨hd2, ?_, ?_⟩
      · show qsum _ = _
        rw [peakGroupAmounts]
        rw [peak_filter_stable t k hd2 hs2]
      · show List.length _ = _
        rw [peakGroupAmounts]
        rw [peak_filter_stable t k hd2 hs2]

theorem C9_witness :
    c9OutRow ∈ peak_days peakFixtureTable 10 ∧
    (c9OutRow.transaction_date.isSome = true ∧
      c9OutRow.daily_refund_value =
        qsum (peakGroupAmounts peakFixtureTable c9OutRow.site c9OutRow.transaction_date) ∧
      c9OutRow.daily_refund_count =
        (peakGroupAmounts peakFixtureTable c9OutRow.site c9OutRow.transaction_date).length) :=
  ⟨by decide, (C9_peak_days peakFixtureTable 10).2.2.2 c9OutRow (by decide)⟩

theorem filterMap_pair_filter (p : Row → Bool) (l : List Row) :
    (l.filter p).filterMap (fun r => (to_numeric r.refund_amount).map (fun q => (r, q))) =
      (l.filterMap (fun r => (to_numeric r.refund_amount).map (fun q => (r, q)))).filter
        (fun rq => p rq.1) := by
  induction l with
  | nil => rfl
  | cons r rs ih =>
    cases hp : p r with
    | true =>
      cases hg : to_numeric r.refund_amount with
      | none => simp [List.filter_cons, hp, List.filterMap_cons, hg, ih]
      | some q => simp [List.filter_cons, hp, List.filterMap_cons, hg, ih]
    | false =>
      cases hg : to_numeric r.refund_amount with
      | none => simp [List.filter_cons, hp, List.filterMap_cons, hg, ih]
      | some q => simp [List.filter_cons, hp, List.filterMap_cons, hg, ih]

theorem sqri_drop_null_sites (t : Table) (w : SQRIWeights) (hv : ℚ) :
    sqri t w hv = sqri (dropNullSites t) w hv := by
  rw [sqri, sqri]
  by_cases h1 : t.rows.isEmpty
  · have h2 : (dropNullSites t).rows.isEmpty = true := by
      rw [dropNullSites]
      cases hr : t.rows with
      | nil => rfl
      | cons a as => rw [hr] at h1; cases h1
    rw [if_pos h1, if_pos h2]
  · by_cases h2 : (dropNullSites t).rows.isEmpty
    · rw [if_neg h1, if_pos h2]
      have hall : ∀ r ∈ t.rows, ¬ (!(r.site == Value.null)) = true := by
        have := List.isEmpty_iff.mp h2
        rw [dropNullSites] at this
        exact List.filter_eq_nil_iff.mp this
      have hd : (t.rows.filterMap
            (fun r => (to_numeric r.refund_amount).map (fun q => (r, q)))).filter
          (fun rq => !(rq.1.site == Value.null)) = [] := by
        rw [List.filter_eq_nil_iff]
        intro rq hrq
        rcases List.mem_filterMap.mp hrq with ⟨r, hr, hg⟩
        cases hn : to_numeric r.refund_amount with
        | none => rw [hn] at hg; cases hg
        | some q =>
          rw [hn] at hg
          have hrq1 : rq.1 = r := by
            cases hg
            rfl
          rw [hrq1]
          exact hall r hr
      dsimp only
      rw [hd]
      rfl
    · rw [if_neg h1, if_neg h2]
      have hd : ((dropNullSites t).rows.filterMap
            (fun r => (to_numeric r.refund_amount).map (fun q => (r, q)))).filter
          (fun rq => !(rq.1.site == Value.null)) =
          (t.rows.filterMap
            (fun r => (to_numeric r.refund_amount).map (fun q => (r, q)))).filter
          (fun rq => !(rq.1.site == Value.null)) := by
        rw [dropNullSites]
        rw [filterMap_pair_filter (fun r => !(r.site == Value.null)) t.rows]
        rw [@List.filter_filter _ (fun rq => !(rq.1.site == Value.null))
          (fun rq => !(rq.1.site == Value.null))
          (t.rows.filterMap (fun r => (to_numeric r.refund_amount).map (fun q => (r, q))))]
        apply List.filter_congr
        intro rq _
        cases hb : (rq.1.site == Value.null) <;> simp [hb]
      dsimp only
      rw [hd]

/-- C10 (implicit): the SQRI computation excludes every null-site row from all
per-site aggregates — no output row has a null site and dropping the null-site
rows leaves the result unchanged — unlike `by_site_month`, whose
`dropna=False` group-by keeps a null site as its own group. -/
theorem C10_sqri_null_site :
    (∀ (t : Table) (w : SQRIWeights) (hv : ℚ),
      ∀ row ∈ sqri t w hv, row.site ≠ Value.null) ∧
    (∀ (t : Table) (w : SQRIWeights) (hv : ℚ),
      sqri t w hv = sqri (dropNullSites t) w hv) ∧
    Value.null ∈ (by_site_month (tableOfCleaned [nullSiteRow])).map (fun g => g.key1) := by
  refine ⟨?_, sqri_drop_null_sites, by decide⟩
  intro t w hv row hmem
  rw [sqri] at hmem
  by_cases he : t.rows.isEmpty
  · rw [if_pos he] at hmem
    cases hmem
  · rw [if_neg he] at hmem
    rw [mem_sortDescBy] at hmem
    rcases List.mem_map.mp hmem with ⟨s, hs, heq⟩
    have hs2 := (mem_uniq _ s).mp hs
    rcases List.mem_map.mp hs2 with ⟨rq, hrq, hsite⟩
    rcases List.mem_filter.mp hrq with ⟨-, hpred⟩
    subst heq
    dsimp only
    rw [← hsite]
    intro hc
    rw [hc] at hpred
    cases hpred

theorem C10_witness :
    c10OutRow ∈ sqri c10Table defaultSQRIWeights 100 ∧ c10OutRow.site ≠ Value.null :=
  ⟨by decide,
    C10_sqri_null_site.1 c10Table defaultSQRIWeights 100 c10OutRow (by decide)⟩
